import Mathlib

/-
Verification of the GCN inline-assembly builder and the HSACO code-generation
pipeline of this repository.  The definitions below are shallow embeddings of
the C++ sources:

  * src/include/triton/Conversion/TritonGPUToLLVM/GCNAsmFormat.h
  * src/lib/Target/HSACO/HSACOTranslation.cpp
  * src/lib/ir/Ops.cpp

Functions whose bodies live in a translation unit that is not part of the
repository snapshot (GCNAsmFormat.cpp) are modelled from the specification
and carry a doc comment starting with "Modelled from the spec:".
-/

namespace GCNFmt

/-- Shallow embedding of GCNInstrCommon and GCNInstrBase from GCNAsmFormat.h:
an instruction is the accumulated list of mnemonic and suffix tokens
(the C++ field instrParts). -/
structure InstrCommon where
  instrParts : List String
deriving DecidableEq

/-- The GCNInstrBase constructor: GCNInstrBase(builder, name) runs o(name),
so a freshly constructed instruction holds the single token name. -/
def mkInstr (name : String) : InstrCommon :=
  { instrParts := [name] }

/-- GCNInstrBase::o(suffix, predicate): append the suffix token iff the
predicate holds, and hand back the (updated) builder for fluent chaining. -/
def o (instr : InstrCommon) (suffix : String) (predicate : Bool) : InstrCommon :=
  if predicate then { instrParts := instr.instrParts ++ [suffix] } else instr

/-- A chain of fluent o-calls applied in call order, as written in the C++
clients with instr.o(s1, p1).o(s2, p2)... -/
def chainO (instr : InstrCommon) (calls : List (String × Bool)) : InstrCommon :=
  calls.foldl (fun acc sb => o acc sb.1 sb.2) instr

/-- GCNInstr::float_op_type(width) from GCNAsmFormat.h: switch on width.
The case Byte (8) executes assert(Byte != width), which always fails there,
modelled as the failure value none; cases 16, 32, 64 append the matching
floating-point suffix; every other width falls through the default and
appends nothing. -/
def float_op_type (instr : InstrCommon) (width : Int) : Option InstrCommon :=
  if width = 8 then none
  else if width = 16 then some (o instr "f16" true)
  else if width = 32 then some (o instr "f32" true)
  else if width = 64 then some (o instr "f64" true)
  else some instr

/-- GCNMemInstr::load_type(width) from GCNAsmFormat.h: switch on width with
cases 8, 16, 32, 64 appending the load suffix; the default appends nothing
and never fails. -/
def load_type (instr : InstrCommon) (width : Int) : InstrCommon :=
  if width = 8 then o instr "ubyte" true
  else if width = 16 then o instr "ushort" true
  else if width = 32 then o instr "dword" true
  else if width = 64 then o instr "dwordx2" true
  else instr

/-- GCNMemInstr::store_type(width) from GCNAsmFormat.h: switch on width with
cases 8, 16, 32, 64 appending the store suffix; the default appends nothing
and never fails. -/
def store_type (instr : InstrCommon) (width : Int) : InstrCommon :=
  if width = 8 then o instr "byte" true
  else if width = 16 then o instr "short" true
  else if width = 32 then o instr "dword" true
  else if width = 64 then o instr "dwordx2" true
  else instr

theorem chainO_instrParts (calls : List (String × Bool)) (instr : InstrCommon) :
    (chainO instr calls).instrParts =
      instr.instrParts ++ (calls.filter (fun sb => sb.2)).map (fun sb => sb.1) := by
  induction calls generalizing instr with
  | nil => simp [chainO]
  | cons c cs ih =>
    cases hc : c.2 with
    | true =>
      have : chainO instr (c :: cs) = chainO (o instr c.1 true) cs := by
        simp [chainO, List.foldl_cons, hc]
      rw [this, ih]
      simp [o, List.filter_cons, hc, List.append_assoc]
    | false =>
      have : chainO instr (c :: cs) = chainO instr cs := by
        simp [chainO, List.foldl_cons, hc, o]
      rw [this, ih]
      simp [List.filter_cons, hc]

/-- Claim C5: GCNInstr::float_op_type appends exactly the suffix "f16" for
width 16, "f32" for width 32, "f64" for width 64, and width 8 triggers the
assertion failure (modelled as none) rather than appending any suffix. -/
theorem C5_float_op_type (instr : InstrCommon) :
    float_op_type instr 16 = some { instrParts := instr.instrParts ++ ["f16"] } ∧
    float_op_type instr 32 = some { instrParts := instr.instrParts ++ ["f32"] } ∧
    float_op_type instr 64 = some { instrParts := instr.instrParts ++ ["f64"] } ∧
    float_op_type instr 8 = none := by
  refine ⟨?_, ?_, ?_, ?_⟩ <;> simp [float_op_type, o]

/-- Claim C6: GCNMemInstr::load_type appends exactly "ubyte", "ushort",
"dword", "dwordx2" for widths 8, 16, 32, 64 and GCNMemInstr::store_type
appends exactly "byte", "short", "dword", "dwordx2" for widths 8, 16, 32, 64;
any width outside that set leaves both instructions unchanged and neither
function fails (both are total). -/
theorem C6_mem_suffixes (instr : InstrCommon) (w : Int) :
    load_type instr 8 = { instrParts := instr.instrParts ++ ["ubyte"] } ∧
    load_type instr 16 = { instrParts := instr.instrParts ++ ["ushort"] } ∧
    load_type instr 32 = { instrParts := instr.instrParts ++ ["dword"] } ∧
    load_type instr 64 = { instrParts := instr.instrParts ++ ["dwordx2"] } ∧
    store_type instr 8 = { instrParts := instr.instrParts ++ ["byte"] } ∧
    store_type instr 16 = { instrParts := instr.instrParts ++ ["short"] } ∧
    store_type instr 32 = { instrParts := instr.instrParts ++ ["dword"] } ∧
    store_type instr 64 = { instrParts := instr.instrParts ++ ["dwordx2"] } ∧
    (w ≠ 8 → w ≠ 16 → w ≠ 32 → w ≠ 64 →
      load_type instr w = instr ∧ store_type instr w = instr) := by
  refine ⟨?_, ?_, ?_, ?_, ?_, ?_, ?_, ?_, ?_⟩ <;>
    first
      | (intro h8 h16 h32 h64; constructor <;> simp [load_type, store_type, h8, h16, h32, h64])
      | simp [load_type, store_type, o]

theorem C6_mem_suffixes_witness :
    load_type (mkInstr "flat_load") 48 = mkInstr "flat_load" ∧
    store_type (mkInstr "flat_load") 48 = mkInstr "flat_load" :=
  (C6_mem_suffixes (mkInstr "flat_load") 48).2.2.2.2.2.2.2.2
    (by decide) (by decide) (by decide) (by decide)

/-- Claim C7: constructing an instruction with name n leaves the suffix-token
list equal to [n]; o(s, true) appends s to the token list, o(s, false) leaves
the builder unchanged, and chained o-calls accumulate exactly the suffixes
whose predicate holds, in call order. -/
theorem C7_fluent_suffixes (n s : String) (instr : InstrCommon)
    (calls : List (String × Bool)) :
    (mkInstr n).instrParts = [n] ∧
    (o instr s true).instrParts = instr.instrParts ++ [s] ∧
    o instr s false = instr ∧
    (chainO instr calls).instrParts =
      instr.instrParts ++ (calls.filter (fun sb => sb.2)).map (fun sb => sb.1) :=
  ⟨rfl, by simp [o], by simp [o], chainO_instrParts calls instr⟩

end GCNFmt

namespace HSACO

/-- Shallow embedding of an llvm::Function as used by HSACOTranslation.cpp:
only the AlwaysInline attribute added by the pipeline is observable. -/
structure LFunc where
  name : String
  alwaysInline : Bool
deriving DecidableEq

/-- Shallow embedding of an llvm::Module as used by HSACOTranslation.cpp:
identifier, target triple, data layout, functions, and two flags recording
whether the destructive code-emission passes of the assembly branch or the
object branch have run on this copy of the module. -/
structure LModule where
  moduleId : String
  targetTriple : String
  dataLayout : String
  funcs : List LFunc
  asmLowered : Bool
  objLowered : Bool
deriving DecidableEq

/-- Shallow embedding of llvm::TargetMachine as configured by the pipeline
(options AllowFPOpFusion=Fast, NoNaNsFPMath=true, Reloc::PIC_,
CodeGenOpt::Aggressive are fixed by the code and not modelled as fields). -/
structure TargetMachine where
  targetName : String
  triple : String
  proc : String
  features : String
deriving DecidableEq

/-- TargetMachine::createDataLayout, abstracted as a deterministic function of
the configured target. -/
def TargetMachine.createDataLayout (tm : TargetMachine) : String :=
  "layout(" ++ tm.targetName ++ ")"

/-- llvm::TargetRegistry::lookupTarget(triple, error): the process-wide
registry is modelled as the list of registered triples; on a miss the target
pointer is null and the lookup error text is written into the error string. -/
def lookupTarget (registry : List String) (triple : String) :
    Option String × String :=
  if triple ∈ registry then (some triple, "")
  else (none, "unable to find target for triple " ++ triple)

/-- Outcome of initialize_module in HSACOTranslation.cpp.  The source never
checks the pointer returned by lookupTarget: when the lookup misses, the very
next statement dereferences the null target pointer
(target->createTargetMachine), which is undefined behaviour and aborts the
unit without returning; the constructor nullTargetDeref records that outcome.
Note it carries no error text: the local error string is never read. -/
inductive InitOutcome where
  | ok (machine : TargetMachine) (module : LModule)
  | nullTargetDeref (module : LModule)
deriving DecidableEq

/-- Shallow embedding of initialize_module (HSACOTranslation.cpp lines 48-77):
run the verifier, set the triple, look the target up in the registry,
build the target machine, propagate its data layout onto the module and mark
every function AlwaysInline.  A failed lookup reaches the null dereference. -/
def init_module (registry : List String) (module : LModule)
    (triple proc features : String) : InitOutcome :=
  let module1 := { module with targetTriple := triple }
  match lookupTarget registry module1.targetTriple with
  | (some t, _err) =>
    let machine : TargetMachine :=
      { targetName := t, triple := module1.targetTriple,
        proc := proc, features := features }
    let module2 :=
      { module1 with
        dataLayout := machine.createDataLayout,
        funcs := module1.funcs.map (fun f => { f with alwaysInline := true }) }
    InitOutcome.ok machine module2
  | (none, _err) => InitOutcome.nullTargetDeref module1

/-- The target machine's code-emission passes configured for textual assembly
(addPassesToEmitFile with CGFT_AssemblyFile followed by pass.run): they lower
the module destructively and fill the in-memory buffer. -/
def emitAsmPass (machine : TargetMachine) (m : LModule) : LModule × String :=
  ({ m with asmLowered := true },
   "asm(" ++ m.moduleId ++ "," ++ machine.proc ++ "," ++ machine.features ++ ")")

/-- The target machine's code-emission passes configured for a native object
(addPassesToEmitFile with CGFT_ObjectFile followed by pass.run): they lower
the module destructively and write the object bytes to the output stream. -/
def emitObjPass (machine : TargetMachine) (m : LModule) : LModule × String :=
  ({ m with objLowered := true },
   "obj(" ++ m.moduleId ++ "," ++ machine.proc ++ "," ++ machine.features ++ ")")

/-- Result of one emission stage: the final state of the module the stage ran
on, the lines it printed on standard output, and its returned value; crash is
the aborted-unit outcome propagated from the null target dereference. -/
inductive GenResult (A : Type) where
  | ok (module : LModule) (stdoutLines : List String) (val : A)
  | crash
deriving DecidableEq

/-- Shallow embedding of generate_amdgcn_assembly (HSACOTranslation.cpp
lines 79-100): initialize the module, run the assembly-emission passes into
an in-memory buffer, optionally echo the buffer when AMDGCN_ENABLE_DUMP is
set, and return the buffer as a string. -/
def generate_amdgcn_assembly (registry : List String) (dumpEnabled : Bool)
    (module : LModule) (triple proc features : String) : GenResult String :=
  match init_module registry module triple proc features with
  | InitOutcome.nullTargetDeref _ => GenResult.crash
  | InitOutcome.ok machine m =>
    let lowered := emitAsmPass machine m
    let amdgcn := lowered.2
    let out :=
      if dumpEnabled then ["// -----// AMDGCN Dump //----- //\n" ++ amdgcn]
      else []
    GenResult.ok lowered.1 out amdgcn

/-- External effects consumed by generate_hsaco: the std::tmpnam result, the
std::error_code produced when opening the object output stream, and the exit
code plus captured error message of the ld.lld subprocess. -/
structure LinkEnv where
  tmpname : String
  fileEC : Int
  lldExit : Int
  lldErrMsg : String
deriving DecidableEq

/-- Shallow embedding of generate_hsaco (HSACOTranslation.cpp lines 102-141):
initialize the module, open <tmpname>_<moduleId>.o (printing a diagnostic if
the stream has an error code), run the object-emission passes, invoke ld.lld
synchronously on it, print the captured message and exit code if the exit
code is non-zero, and return the .hsaco path unconditionally. -/
def generate_hsaco (registry : List String) (env : LinkEnv)
    (module : LModule) (triple proc features : String) : GenResult String :=
  match init_module registry module triple proc features with
  | InitOutcome.nullTargetDeref _ => GenResult.crash
  | InitOutcome.ok machine m =>
    let kernel_name := env.tmpname ++ "_" ++ m.moduleId
    let isabin_path := kernel_name ++ ".o"
    let out1 :=
      if env.fileEC ≠ 0 then
        [isabin_path ++ " was not created. error code: " ++ toString env.fileEC]
      else []
    let lowered := emitObjPass machine m
    let hsaco_path := kernel_name ++ ".hsaco"
    let out2 :=
      if env.lldExit ≠ 0 then
        ["ld.lld execute fail: ", env.lldErrMsg, toString env.lldExit]
      else []
    GenResult.ok lowered.1 (out1 ++ out2) hsaco_path

/-- init_llvm (HSACOTranslation.cpp lines 40-46): registers the AMDGPU backend
into the process-wide target registry. -/
def init_llvm (registry : List String) : List String :=
  "amdgcn-amd-amdhsa" :: registry

/-- llvm::CloneModule: a by-value copy of the module. -/
def CloneModule (m : LModule) : LModule := m

/-- Shallow embedding of llir_to_amdgcn_and_hsaco (HSACOTranslation.cpp lines
143-158): fix triple and features, register the backend, clone the module,
run the assembly branch on the original and the object/link branch on the
clone, and pair up their artifacts.  The crash outcome of either branch
(null target dereference) aborts the unit, modelled as none. -/
def llir_to_amdgcn_and_hsaco (registry : List String) (dumpEnabled : Bool)
    (env : LinkEnv) (module : LModule) (cc : String) :
    Option (String × String) :=
  let triple := "amdgcn-amd-amdhsa"
  let proc := cc
  let features := "+sramecc,-xnack"
  let registry1 := init_llvm registry
  let module_obj := CloneModule module
  match generate_amdgcn_assembly registry1 dumpEnabled module triple proc features with
  | GenResult.crash => none
  | GenResult.ok _ _ amdgcn =>
    match generate_hsaco registry1 env module_obj triple proc features with
    | GenResult.crash => none
    | GenResult.ok _ _ hsaco_path => some (amdgcn, hsaco_path)

/-- A concrete module used as failing input and in witnesses. -/
def m0 : LModule :=
  { moduleId := "kernel0", targetTriple := "", dataLayout := "",
    funcs := [{ name := "f", alwaysInline := false }],
    asmLowered := false, objLowered := false }

/-- Claim C1 (code_bug evidence): on a module whose triple is not in the
target registry, initialize_module reaches the null dereference of the
unchecked lookupTarget result instead of failing the unit and surfacing the
registry's lookup error text to the caller; concretely, with an empty
registry and triple "foo-unknown-unknown" the outcome is nullTargetDeref,
which carries no error text because the local error string is never read. -/
theorem C1_null_target_deref :
    init_module [] m0 "foo-unknown-unknown" "gfx908" "+sramecc,-xnack" =
      InitOutcome.nullTargetDeref { m0 with targetTriple := "foo-unknown-unknown" } := by
  decide

end HSACO

namespace HSACO

/-- Claim C2 as amended: for every linker invocation in generate_hsaco with a
resolvable triple, a non-zero exit code makes the function print the captured
error message and the exit code to standard output without terminating the
process, and the .hsaco output path is returned unconditionally, regardless
of the linker's exit code. -/
theorem C2_linker_reporting (registry : List String) (env : LinkEnv)
    (module : LModule) (triple proc features : String) (h : triple ∈ registry) :
    ∃ m,
      generate_hsaco registry env module triple proc features =
        GenResult.ok m
          ((if env.fileEC ≠ 0 then
              [env.tmpname ++ "_" ++ module.moduleId ++ ".o" ++
                " was not created. error code: " ++ toString env.fileEC]
            else []) ++
           (if env.lldExit ≠ 0 then
              ["ld.lld execute fail: ", env.lldErrMsg, toString env.lldExit]
            else []))
          (env.tmpname ++ "_" ++ module.moduleId ++ ".hsaco") := by
  refine ⟨{ module with
            targetTriple := triple,
            dataLayout := "layout(" ++ triple ++ ")",
            funcs := module.funcs.map (fun f => { f with alwaysInline := true }),
            objLowered := true }, ?_⟩
  simp [generate_hsaco, init_module, lookupTarget, h, emitObjPass,
    TargetMachine.createDataLayout]

/-- A linker environment whose ld.lld invocation fails with exit code 1. -/
def envFail : LinkEnv :=
  { tmpname := "tmpA", fileEC := 0, lldExit := 1, lldErrMsg := "ld.lld: cannot open" }

/-- Counterexample to claim C2 as stated: with a failing linker (exit code 1)
generate_hsaco still hands the .hsaco output path back to its caller as the
result value, so the output path is not returned only when the linker exits
with code 0, and the failure is not distinguishable from success in the
returned artifact. -/
theorem C2_counterexample :
    generate_hsaco ["amdgcn-amd-amdhsa"] envFail m0
        "amdgcn-amd-amdhsa" "gfx908" "+sramecc,-xnack" =
      GenResult.ok
        { m0 with targetTriple := "amdgcn-amd-amdhsa",
                  dataLayout := "layout(" ++ "amdgcn-amd-amdhsa" ++ ")",
                  funcs := [{ name := "f", alwaysInline := true }],
                  objLowered := true }
        ["ld.lld execute fail: ", "ld.lld: cannot open", "1"]
        "tmpA_kernel0.hsaco" ∧
    envFail.lldExit = 1 := by
  constructor
  · decide
  · rfl

/-- A linker environment whose ld.lld invocation succeeds. -/
def envOk : LinkEnv :=
  { tmpname := "tmpB", fileEC := 0, lldExit := 0, lldErrMsg := "" }

theorem C2_linker_reporting_witness :
    ∃ m,
      generate_hsaco ["t0"] envOk m0 "t0" "gfx90a" "feat" =
        GenResult.ok m
          ((if envOk.fileEC ≠ 0 then
              [envOk.tmpname ++ "_" ++ m0.moduleId ++ ".o" ++
                " was not created. error code: " ++ toString envOk.fileEC]
            else []) ++
           (if envOk.lldExit ≠ 0 then
              ["ld.lld execute fail: ", envOk.lldErrMsg, toString envOk.lldExit]
            else []))
          (envOk.tmpname ++ "_" ++ m0.moduleId ++ ".hsaco") :=
  C2_linker_reporting ["t0"] envOk m0 "t0" "gfx90a" "feat" (by decide)

/-- Claim C9: llir_to_amdgcn_and_hsaco clones the module before any emission;
the assembly branch runs on the original and the object/link branch runs on
the clone (taken before the assembly branch's destructive lowering), the two
branches operate on logically independent copies (neither branch's final
module state carries the other branch's lowering), and the returned pair is
the assembly text of the former together with the hsaco path of the latter. -/
theorem C9_clone_independence (registry : List String) (dumpEnabled : Bool)
    (env : LinkEnv) (module : LModule) (cc : String) :
    ∃ m1 out1 amdgcn m2 out2 hsaco_path,
      generate_amdgcn_assembly (init_llvm registry) dumpEnabled module
          "amdgcn-amd-amdhsa" cc "+sramecc,-xnack" = GenResult.ok m1 out1 amdgcn ∧
      generate_hsaco (init_llvm registry) env (CloneModule module)
          "amdgcn-amd-amdhsa" cc "+sramecc,-xnack" = GenResult.ok m2 out2 hsaco_path ∧
      llir_to_amdgcn_and_hsaco registry dumpEnabled env module cc =
        some (amdgcn, hsaco_path) ∧
      CloneModule module = module ∧
      m1.asmLowered = true ∧ m1.objLowered = module.objLowered ∧
      m2.objLowered = true ∧ m2.asmLowered = module.asmLowered := by
  have hmem : "amdgcn-amd-amdhsa" ∈ init_llvm registry :=
    List.mem_cons_self _ _
  have hinit : init_module (init_llvm registry) module
      "amdgcn-amd-amdhsa" cc "+sramecc,-xnack" =
      InitOutcome.ok
        { targetName := "amdgcn-amd-amdhsa", triple := "amdgcn-amd-amdhsa",
          proc := cc, features := "+sramecc,-xnack" }
        { module with
          targetTriple := "amdgcn-amd-amdhsa",
          dataLayout := "layout(" ++ "amdgcn-amd-amdhsa" ++ ")",
          funcs := module.funcs.map (fun f => { f with alwaysInline := true }) } := by
    simp [init_module, lookupTarget, hmem, TargetMachine.createDataLayout]
  have hasm : generate_amdgcn_assembly (init_llvm registry) dumpEnabled module
      "amdgcn-amd-amdhsa" cc "+sramecc,-xnack" =
      GenResult.ok
        { module with
          targetTriple := "amdgcn-amd-amdhsa",
          dataLayout := "layout(" ++ "amdgcn-amd-amdhsa" ++ ")",
          funcs := module.funcs.map (fun f => { f with alwaysInline := true }),
          asmLowered := true }
        (if dumpEnabled then
          ["// -----// AMDGCN Dump //----- //\n" ++
            ("asm(" ++ module.moduleId ++ "," ++ cc ++ "," ++ "+sramecc,-xnack" ++ ")")]
         else [])
        ("asm(" ++ module.moduleId ++ "," ++ cc ++ "," ++ "+sramecc,-xnack" ++ ")") := by
    simp [generate_amdgcn_assembly, hinit, emitAsmPass]
  have hhsa : generate_hsaco (init_llvm registry) env (CloneModule module)
      "amdgcn-amd-amdhsa" cc "+sramecc,-xnack" =
      GenResult.ok
        { module with
          targetTriple := "amdgcn-amd-amdhsa",
          dataLayout := "layout(" ++ "amdgcn-amd-amdhsa" ++ ")",
          funcs := module.funcs.map (fun f => { f with alwaysInline := true }),
          objLowered := true }
        ((if env.fileEC ≠ 0 then
            [env.tmpname ++ "_" ++ module.moduleId ++ ".o" ++
              " was not created. error code: " ++ toString env.fileEC]
          else []) ++
         (if env.lldExit ≠ 0 then
            ["ld.lld execute fail: ", env.lldErrMsg, toString env.lldExit]
          else []))
        (env.tmpname ++ "_" ++ module.moduleId ++ ".hsaco") := by
    simp [generate_hsaco, CloneModule, hinit, emitObjPass]
  refine ⟨_, _, _, _, _, _, hasm, hhsa, ?_, rfl, rfl, rfl, rfl, rfl⟩
  simp [llir_to_amdgcn_and_hsaco, CloneModule] at hasm hhsa ⊢
  rw [hasm, hhsa]

end HSACO

namespace GCNFmt

/-- Shallow embedding of GCNBuilder::Operand from GCNAsmFormat.h: whether an
MLIR value is bound, the ASM constraint string, the arena ids of the child
operands of a list, and the fixed literal of a custom renderer (the repr
field; constant operands install a renderer that ignores the index).
Operands live in an arena (the builder's argArchive) and are referred to by
their creation index. -/
structure Operand where
  hasValue : Bool
  constraint : String
  children : List Nat
  reprLit : Option String
deriving DecidableEq

/-- GCNBuilder::Operand::isList from GCNAsmFormat.h line 36:
return !value && constraint.empty(). -/
def Operand.isList (op : Operand) : Bool :=
  (!op.hasValue) && (op.constraint == "")

/-- GCNBuilder::newOperand(value, constraint): a bound operand carrying the
given constraint (declared in the header; the body allocates the record with
both fields set, per the spec's Operand/Modifier Store contract). -/
def newBoundOperand (constraint : String) : Operand :=
  { hasValue := true, constraint := constraint, children := [], reprLit := none }

/-- Modelled from the spec: GCNBuilder::newOperand(constraint), whose body is
in the missing GCNAsmFormat.cpp, creates a write-only operand with the given
constraint and no bound value. -/
def newWriteOperand (constraint : String) : Operand :=
  { hasValue := false, constraint := constraint, children := [], reprLit := none }

/-- Modelled from the spec: GCNBuilder::newConstantOperand, whose body is in
the missing GCNAsmFormat.cpp, creates an Operand with no constraint, no bound
value, and a fixed literal rendering used for embedding immediates without
consuming a register constraint slot. -/
def newConstantOperand (lit : String) : Operand :=
  { hasValue := false, constraint := "", children := [], reprLit := some lit }

/-- GCNBuilder::newListOperand followed by listAppend of each child: a list
container with no bound value and no constraint, holding the children's
arena ids in child order. -/
def newListOperand (children : List Nat) : Operand :=
  { hasValue := false, constraint := "", children := children, reprLit := none }

/-- Modelled from the spec: the Format Synthesizer's expansion of one operand
reference (the body of GCNBuilder::getAllArgs lives in the missing
GCNAsmFormat.cpp): a list Operand expands to its children in child order and
contributes nothing of its own, a non-list Operand contributes itself.  The
fuel bounds the nesting depth. -/
def expandRef (arena : List Operand) : Nat → Nat → List Nat
  | 0, _ => []
  | fuel + 1, i =>
    match arena.get? i with
    | none => []
    | some op =>
      if op.isList then (op.children.map (fun c => expandRef arena fuel c)).flatten
      else [i]

/-- Modelled from the spec: the flat sequence of non-list operand references
made by a set of Invocations, in call order, each invocation's operand list
expanded in order. -/
def flatRefs (arena : List Operand) (fuel : Nat) (invs : List (List Nat)) :
    List Nat :=
  (invs.map (fun inv => (inv.map (fun i => expandRef arena fuel i)).flatten)).flatten

/-- Keep the first occurrence of a reference, drop re-references. -/
def insFirst (acc : List Nat) (i : Nat) : List Nat :=
  if i ∈ acc then acc else acc ++ [i]

/-- The distinct referenced operands in first-reference order. -/
def firstRefs (refs : List Nat) : List Nat :=
  refs.foldl insFirst []

/-- First-match lookup of an operand id in the assignment list
(operand id, index). -/
def lookupIdx : List (Nat × Nat) → Nat → Option Nat
  | [], _ => none
  | p :: ps, i => if p.1 = i then some p.2 else lookupIdx ps i

/-- Reverse lookup: the operand id that carries a given index. -/
def entryAt : List (Nat × Nat) → Nat → Option Nat
  | [], _ => none
  | p :: ps, k => if p.2 = k then some p.1 else entryAt ps k

/-- State of the index-assignment walk: the (operand id, index) pairs in
assignment order, and the running counter (the builder's oprCounter). -/
structure AsgState where
  assigned : List (Nat × Nat)
  counter : Nat
deriving DecidableEq

/-- Modelled from the spec: one step of index assignment.  A reference to an
already-indexed operand changes nothing; a first reference receives the
current counter value as its zero-based index and bumps the counter. -/
def stepAssign (st : AsgState) (i : Nat) : AsgState :=
  match lookupIdx st.assigned i with
  | some _ => st
  | none => { assigned := st.assigned ++ [(i, st.counter)], counter := st.counter + 1 }

/-- Modelled from the spec: index assignment over the whole flat reference
sequence, starting from the empty assignment and counter 0. -/
def runAssign (refs : List Nat) : AsgState :=
  refs.foldl stepAssign { assigned := [], counter := 0 }

/-- The canonical assignment list of a distinct reference list starting at a
base index: the n-th element of D is paired with base + n. -/
def canonAssigned : List Nat → Nat → List (Nat × Nat)
  | [], _ => []
  | d :: ds, b => (d, b) :: canonAssigned ds (b + 1)

/-- The canonical assignment state of a distinct reference list. -/
def canonState (D : List Nat) : AsgState :=
  { assigned := canonAssigned D 0, counter := D.length }

/-- The constraint string of the operand with the given arena id. -/
def constraintOf (arena : List Operand) (i : Nat) : String :=
  match arena.get? i with
  | some op => op.constraint
  | none => ""

/-- Modelled from the spec: GCNBuilder::getConstraints (body in the missing
GCNAsmFormat.cpp) produces the comma-joined concatenation, in index order, of
each indexed Operand's constraint string: for every index 0 <= k < counter it
takes the constraint of the operand assigned index k. -/
def getConstraints (arena : List Operand) (fuel : Nat)
    (invs : List (List Nat)) : String :=
  let st := runAssign (flatRefs arena fuel invs)
  String.intercalate ","
    ((List.range st.counter).filterMap
      (fun k => (entryAt st.assigned k).map (fun i => constraintOf arena i)))

/-- The position index rendered for an operand: its assigned index, or the
default -1 (the C++ field initializer) when none was assigned. -/
def idxOf (st : AsgState) (i : Nat) : Int :=
  match lookupIdx st.assigned i with
  | some k => (k : Int)
  | none => -1

/-- Modelled from the spec: Operand rendering (GCNBuilder::Operand::dump in
the missing GCNAsmFormat.cpp): a custom renderer (constant literal) wins
regardless of index, a list renders its children joined by ", ", and a
non-list operand renders as % followed by its index. -/
def renderOperand (arena : List Operand) (st : AsgState) : Nat → Nat → String
  | 0, _ => ""
  | fuel + 1, i =>
    match arena.get? i with
    | none => ""
    | some op =>
      match op.reprLit with
      | some lit => lit
      | none =>
        if op.isList then
          String.intercalate ", "
            (op.children.map (fun c => renderOperand arena st fuel c))
        else "%" ++ toString (idxOf st i)

/-- The joined mnemonic of an instruction: the accumulated suffix tokens
joined in the GCN ISA style. -/
def mnemonic (instr : InstrCommon) : String :=
  String.intercalate "_" instr.instrParts

/-- Modelled from the spec: GCNInstrExecution::dump (body in the missing
GCNAsmFormat.cpp) renders one invocation without modifiers: the mnemonic,
a space, and the rendered operands joined by ", ". -/
def renderExecution (arena : List Operand) (st : AsgState) (fuel : Nat)
    (instr : InstrCommon) (args : List Nat) : String :=
  mnemonic instr ++ " " ++
    String.intercalate ", " (args.map (fun i => renderOperand arena st fuel i))

end GCNFmt

namespace GCNFmt

theorem canonAssigned_append (A B : List Nat) (b : Nat) :
    canonAssigned (A ++ B) b = canonAssigned A b ++ canonAssigned B (b + A.length) := by
  induction A generalizing b with
  | nil => simp [canonAssigned]
  | cons d ds ih =>
    show (d, b) :: canonAssigned (ds ++ B) (b + 1) =
      (d, b) :: (canonAssigned ds (b + 1) ++ canonAssigned B (b + (ds.length + 1)))
    rw [ih (b + 1)]
    have h : b + 1 + ds.length = b + (ds.length + 1) := by omega
    rw [h]

theorem lookupIdx_canon_of_not_mem :
    ∀ (D : List Nat) (b i : Nat), i ∉ D → lookupIdx (canonAssigned D b) i = none
  | [], _, _, _ => rfl
  | d :: ds, b, i, h => by
    simp only [canonAssigned, lookupIdx]
    rw [if_neg (fun he : d = i => h (he ▸ List.mem_cons_self d ds))]
    exact lookupIdx_canon_of_not_mem ds (b + 1) i
      (fun hm => h (List.mem_cons_of_mem _ hm))

theorem lookupIdx_canon_of_mem :
    ∀ (D : List Nat) (b i : Nat), i ∈ D →
      ∃ k, lookupIdx (canonAssigned D b) i = some k
  | [], _, i, h => absurd h (List.not_mem_nil i)
  | d :: ds, b, i, h => by
    simp only [canonAssigned, lookupIdx]
    by_cases hd : d = i
    · rw [if_pos hd]
      exact ⟨b, rfl⟩
    · rw [if_neg hd]
      have hm : i ∈ ds := by
        rcases List.mem_cons.mp h with he | hm
        · exact absurd he.symm hd
        · exact hm
      exact lookupIdx_canon_of_mem ds (b + 1) i hm

theorem lookupIdx_canon_get :
    ∀ (D : List Nat), D.Nodup → ∀ (b k : Nat) (h : k < D.length),
      lookupIdx (canonAssigned D b) (D.get ⟨k, h⟩) = some (b + k)
  | [], _, _, k, h => absurd h (Nat.not_lt_zero k)
  | d :: ds, hnd, b, 0, h => by
    simp [canonAssigned, lookupIdx]
  | d :: ds, hnd, b, k + 1, h => by
    have hnd' : ds.Nodup := (List.nodup_cons.mp hnd).2
    have hdm : d ∉ ds := (List.nodup_cons.mp hnd).1
    have hk : k < ds.length := Nat.lt_of_succ_lt_succ h
    have hne : d ≠ ds.get ⟨k, hk⟩ :=
      fun he => hdm (he ▸ List.get_mem ds k hk)
    simp only [canonAssigned, lookupIdx, List.get_cons_succ]
    rw [if_neg hne]
    have := lookupIdx_canon_get ds hnd' (b + 1) k hk
    rw [this]
    congr 1
    omega

theorem stepAssign_canon (D : List Nat) (i : Nat) :
    stepAssign (canonState D) i = canonState (insFirst D i) := by
  by_cases hm : i ∈ D
  · obtain ⟨k, hk⟩ := lookupIdx_canon_of_mem D 0 i hm
    simp [stepAssign, canonState, hk, insFirst, hm]
  · have hn := lookupIdx_canon_of_not_mem D 0 i hm
    simp [stepAssign, canonState, hn, insFirst, hm, canonAssigned_append,
      canonAssigned]

theorem foldl_stepAssign_canon (refs : List Nat) :
    ∀ D, refs.foldl stepAssign (canonState D) = canonState (refs.foldl insFirst D) := by
  induction refs with
  | nil => intro D; rfl
  | cons r rs ih =>
    intro D
    rw [List.foldl_cons, stepAssign_canon, ih, List.foldl_cons]

theorem runAssign_eq_canon (refs : List Nat) :
    runAssign refs = canonState (firstRefs refs) := by
  unfold runAssign firstRefs
  exact foldl_stepAssign_canon refs []

theorem mem_foldl_insFirst :
    ∀ (refs D : List Nat) (i : Nat),
      i ∈ refs.foldl insFirst D → i ∈ D ∨ i ∈ refs
  | [], D, i, h => Or.inl h
  | r :: rs, D, i, h => by
    rcases mem_foldl_insFirst rs (insFirst D r) i h with hm | hm
    · unfold insFirst at hm
      by_cases hr : r ∈ D
      · rw [if_pos hr] at hm
        exact Or.inl hm
      · rw [if_neg hr] at hm
        rcases List.mem_append.mp hm with hD | hs
        · exact Or.inl hD
        · exact Or.inr (List.mem_singleton.mp hs ▸ List.mem_cons_self r rs)
    · exact Or.inr (List.mem_cons_of_mem r hm)

theorem nodup_insFirst (D : List Nat) (i : Nat) (h : D.Nodup) :
    (insFirst D i).Nodup := by
  unfold insFirst
  by_cases hm : i ∈ D
  · rwa [if_pos hm]
  · rw [if_neg hm]
    rw [List.nodup_append]
    exact ⟨h, List.nodup_singleton i, fun a ha hs => hm (List.mem_singleton.mp hs ▸ ha)⟩

theorem nodup_foldl_insFirst :
    ∀ (refs D : List Nat), D.Nodup → (refs.foldl insFirst D).Nodup
  | [], _, h => h
  | r :: rs, D, h => nodup_foldl_insFirst rs (insFirst D r) (nodup_insFirst D r h)

theorem foldl_insFirst_prefix :
    ∀ (more D : List Nat), ∃ E, more.foldl insFirst D = D ++ E
  | [], D => ⟨[], by simp⟩
  | r :: rs, D => by
    rw [List.foldl_cons]
    by_cases hm : r ∈ D
    · have : insFirst D r = D := if_pos hm
      rw [this]
      exact foldl_insFirst_prefix rs D
    · have : insFirst D r = D ++ [r] := if_neg hm
      rw [this]
      obtain ⟨E, hE⟩ := foldl_insFirst_prefix rs (D ++ [r])
      exact ⟨[r] ++ E, by rw [hE, List.append_assoc]⟩

theorem lookupIdx_append_of_some :
    ∀ (A B : List (Nat × Nat)) (i k : Nat),
      lookupIdx A i = some k → lookupIdx (A ++ B) i = some k
  | [], _, _, _, h => Option.noConfusion h
  | p :: ps, B, i, k, h => by
    simp only [lookupIdx, List.cons_append] at h ⊢
    by_cases hp : p.1 = i
    · rwa [if_pos hp] at h ⊢
    · rw [if_neg hp] at h ⊢
      exact lookupIdx_append_of_some ps B i k h

theorem expandRef_nonlist (arena : List Operand) :
    ∀ (fuel i j : Nat), j ∈ expandRef arena fuel i →
      ∃ op, arena.get? j = some op ∧ op.isList = false := by
  intro fuel
  induction fuel with
  | zero =>
    intro i j h
    simp [expandRef] at h
  | succ fuel ih =>
    intro i j h
    simp only [expandRef] at h
    split at h
    next => exact absurd h (List.not_mem_nil j)
    next op hg =>
      by_cases hl : op.isList = true
      · rw [if_pos hl] at h
        rcases List.mem_flatten.mp h with ⟨s, hs, hj⟩
        rcases List.mem_map.mp hs with ⟨c, _, rfl⟩
        exact ih c j hj
      · rw [if_neg hl] at h
        have hj : j = i := List.mem_singleton.mp h
        subst hj
        exact ⟨op, hg, by simpa using hl⟩

theorem flatRefs_nonlist (arena : List Operand) (fuel : Nat)
    (invs : List (List Nat)) (j : Nat) (h : j ∈ flatRefs arena fuel invs) :
    ∃ op, arena.get? j = some op ∧ op.isList = false := by
  unfold flatRefs at h
  rcases List.mem_flatten.mp h with ⟨inner, hin, hj⟩
  rcases List.mem_map.mp hin with ⟨inv, _, rfl⟩
  rcases List.mem_flatten.mp hj with ⟨s, hs, hj2⟩
  rcases List.mem_map.mp hs with ⟨i, _, rfl⟩
  exact expandRef_nonlist arena fuel i j hj2

end GCNFmt

namespace GCNFmt

/-- Claim C3: over any operand arena and any invocation set, the k-th
distinct referenced non-list operand (first-reference order, list operands
expanded to their children in child order) is assigned index k (zero-based);
extending the reference stream never changes an index that was already
assigned (re-referencing leaves it unchanged); and a list operand itself
never receives an index. -/
theorem C3_index_assignment (arena : List Operand) (fuel : Nat)
    (invs : List (List Nat)) (k : Nat)
    (hk : k < (firstRefs (flatRefs arena fuel invs)).length) :
    lookupIdx (runAssign (flatRefs arena fuel invs)).assigned
        ((firstRefs (flatRefs arena fuel invs)).get ⟨k, hk⟩) = some k ∧
    (∀ more i idx,
        lookupIdx (runAssign (flatRefs arena fuel invs)).assigned i = some idx →
        lookupIdx (runAssign (flatRefs arena fuel invs ++ more)).assigned i = some idx) ∧
    (∀ i op, arena.get? i = some op → op.isList = true →
        lookupIdx (runAssign (flatRefs arena fuel invs)).assigned i = none) := by
  have hnodup : (firstRefs (flatRefs arena fuel invs)).Nodup :=
    nodup_foldl_insFirst (flatRefs arena fuel invs) [] List.nodup_nil
  have hcanon := runAssign_eq_canon (flatRefs arena fuel invs)
  refine ⟨?_, ?_, ?_⟩
  · rw [hcanon]
    have := lookupIdx_canon_get (firstRefs (flatRefs arena fuel invs)) hnodup 0 k hk
    simpa [canonState] using this
  · intro more i idx hi
    rw [hcanon] at hi
    rw [runAssign_eq_canon]
    unfold firstRefs
    rw [List.foldl_append]
    obtain ⟨E, hE⟩ :=
      foldl_insFirst_prefix more ((flatRefs arena fuel invs).foldl insFirst [])
    rw [hE]
    show lookupIdx
      (canonAssigned ((flatRefs arena fuel invs).foldl insFirst [] ++ E) 0) i = some idx
    rw [canonAssigned_append]
    exact lookupIdx_append_of_some _ _ i idx hi
  · intro i op hop hlist
    rw [hcanon]
    show lookupIdx (canonAssigned (firstRefs (flatRefs arena fuel invs)) 0) i = none
    apply lookupIdx_canon_of_not_mem
    intro hmem
    rcases mem_foldl_insFirst (flatRefs arena fuel invs) [] i hmem with h0 | hr
    · exact absurd h0 (List.not_mem_nil i)
    · obtain ⟨op', hop', hl'⟩ := flatRefs_nonlist arena fuel invs i hr
      rw [hop] at hop'
      cases hop'
      rw [hlist] at hl'
      exact Bool.noConfusion hl'

/-- A concrete arena: a write-only operand, a bound operand, and a list
operand whose children are the first two. -/
def arenaEx : List Operand :=
  [newWriteOperand "=r", newBoundOperand "r", newListOperand [0, 1]]

/-- A concrete invocation set referencing the list operand then re-referencing
the first operand. -/
def invsEx : List (List Nat) := [[2, 0]]

theorem C3_index_assignment_witness :
    lookupIdx (runAssign (flatRefs arenaEx 2 invsEx)).assigned
        ((firstRefs (flatRefs arenaEx 2 invsEx)).get ⟨1, by decide⟩) = some 1 :=
  (C3_index_assignment arenaEx 2 invsEx 1 (by decide)).1

end GCNFmt

namespace GCNFmt

theorem filterMap_congr_fun {A B : Type} (f g : A → Option B) (l : List A)
    (h : ∀ a, f a = g a) : l.filterMap f = l.filterMap g := by
  induction l with
  | nil => rfl
  | cons a as ih => simp only [List.filterMap_cons, h a, ih]

theorem entryAt_cons (p : Nat × Nat) (ps : List (Nat × Nat)) (k : Nat) :
    entryAt (p :: ps) k = if p.2 = k then some p.1 else entryAt ps k := rfl

theorem range_filterMap_entryAt (arena : List Operand) :
    ∀ (D : List Nat) (b : Nat),
      (List.range D.length).filterMap
        (fun k => (entryAt (canonAssigned D b) (b + k)).map
          (fun i => constraintOf arena i)) =
      D.map (fun i => constraintOf arena i) := by
  intro D
  induction D with
  | nil => intro b; rfl
  | cons d ds ih =>
    intro b
    rw [List.length_cons, List.range_succ_eq_map, List.filterMap_cons]
    have h0 : (entryAt (canonAssigned (d :: ds) b) (b + 0)).map
        (fun i => constraintOf arena i) = some (constraintOf arena d) := by
      show (entryAt ((d, b) :: canonAssigned ds (b + 1)) (b + 0)).map
        (fun i => constraintOf arena i) = some (constraintOf arena d)
      rw [entryAt_cons, if_pos (by omega : (d, b).2 = b + 0)]
      rfl
    rw [h0]
    have htail : (List.filterMap
        (fun k => (entryAt (canonAssigned (d :: ds) b) (b + k)).map
          (fun i => constraintOf arena i)) (List.map Nat.succ (List.range ds.length))) =
        (List.range ds.length).filterMap
          (fun k => (entryAt (canonAssigned ds (b + 1)) ((b + 1) + k)).map
            (fun i => constraintOf arena i)) := by
      rw [List.filterMap_map]
      apply filterMap_congr_fun
      intro k
      show (entryAt ((d, b) :: canonAssigned ds (b + 1)) (b + (k + 1))).map
          (fun i => constraintOf arena i) =
        (entryAt (canonAssigned ds (b + 1)) ((b + 1) + k)).map
          (fun i => constraintOf arena i)
      rw [entryAt_cons, if_neg (by omega : ¬((d, b).2 = b + (k + 1)))]
      have : b + (k + 1) = (b + 1) + k := by omega
      rw [this]
    rw [htail, ih (b + 1)]
    rfl

theorem getConstraints_eq (arena : List Operand) (fuel : Nat)
    (invs : List (List Nat)) :
    getConstraints arena fuel invs =
      String.intercalate ","
        ((firstRefs (flatRefs arena fuel invs)).map
          (fun i => constraintOf arena i)) := by
  unfold getConstraints
  rw [runAssign_eq_canon]
  have h := range_filterMap_entryAt arena (firstRefs (flatRefs arena fuel invs)) 0
  simp only [Nat.zero_add] at h
  show String.intercalate ","
      ((List.range (firstRefs (flatRefs arena fuel invs)).length).filterMap
        (fun k => (entryAt (canonAssigned (firstRefs (flatRefs arena fuel invs)) 0) k).map
          (fun i => constraintOf arena i))) =
    String.intercalate ","
      ((firstRefs (flatRefs arena fuel invs)).map (fun i => constraintOf arena i))
  rw [h]

/-- Arena for the end-to-end scenario: a write-only operand "=r" and a bound
operand "r". -/
def movArena : List Operand := [newWriteOperand "=r", newBoundOperand "r"]

/-- Invocation set for the end-to-end scenario: one two-operand invocation. -/
def movInvs : List (List Nat) := [[0, 1]]

/-- Claim C4: getConstraints is the comma-joined concatenation, in index
order, of each referenced non-list operand's constraint string (list operands
contribute their children's constraints in child order via the expanded
reference sequence, and nothing of their own); in particular two bound
operands with constraints "=r" and "r" passed to a two-operand instruction
named "v_mov_b32" yield constraint string "=r,r" and rendered text
"v_mov_b32 %0, %1". -/
theorem C4_constraints (arena : List Operand) (fuel : Nat)
    (invs : List (List Nat)) :
    getConstraints arena fuel invs =
      String.intercalate ","
        ((firstRefs (flatRefs arena fuel invs)).map
          (fun i => constraintOf arena i)) ∧
    getConstraints movArena 1 movInvs = "=r,r" ∧
    renderExecution movArena (runAssign (flatRefs movArena 1 movInvs)) 1
        (mkInstr "v_mov_b32") [0, 1] = "v_mov_b32 %0, %1" :=
  ⟨getConstraints_eq arena fuel invs, by decide, by decide⟩

end GCNFmt

namespace GCNFmt

/-- Counterexample to claim C8 as stated: a constant operand — created with
no bound value, no constraint, and a fixed literal renderer — satisfies
isList(), although it is not a list container, so it is false that every
non-list Operand (including constant Operands) fails isList(). -/
theorem C8_counterexample :
    Operand.isList (newConstantOperand "0x0") = true ∧
    (newConstantOperand "0x0").hasValue = false ∧
    (newConstantOperand "0x0").constraint = "" ∧
    (newConstantOperand "0x0").children = [] ∧
    (newConstantOperand "0x0").reprLit = some "0x0" := by
  refine ⟨by decide, rfl, rfl, rfl, rfl⟩

/-- Claim C8 as amended: isList() returns true exactly when the Operand
carries neither a bound value nor a constraint string; operands created by
newListOperand satisfy it, operands created with a bound value fail it
whatever their constraint, write-only operands with a nonempty constraint
fail it, and constant operands created by newConstantOperand — which carry
neither a bound value nor a constraint — also satisfy isList() despite not
being list containers. -/
theorem C8_isList_characterization (op : Operand) (c c2 lit : String)
    (children : List Nat) (hc : c ≠ "") :
    (op.isList = true ↔ (op.hasValue = false ∧ op.constraint = "")) ∧
    (newListOperand children).isList = true ∧
    (newBoundOperand c2).isList = false ∧
    (newWriteOperand c).isList = false ∧
    (newConstantOperand lit).isList = true := by
  refine ⟨?_, ?_, rfl, ?_, ?_⟩
  · simp [Operand.isList]
  · simp [Operand.isList, newListOperand]
  · simp [Operand.isList, newWriteOperand, hc]
  · simp [Operand.isList, newConstantOperand]

theorem C8_isList_characterization_witness :
    (newWriteOperand "=r").isList = false :=
  (C8_isList_characterization (newConstantOperand "k") "=r" "r" "0x1" [0]
    (by decide)).2.2.2.1

end GCNFmt

namespace TTIR

/-- Shallow embedding of the MLIR types that Ops.cpp manipulates: the builder
boolean type i1, scalars, Triton pointer types, and ranked tensor types with
a shape and an element type. -/
inductive MType where
  | i1
  | i32
  | f32
  | ptr (pointee : MType)
  | tensor (shape : List Int) (elem : MType)
deriving DecidableEq

/-- dyn_cast<TensorType> followed by getShape and getElementType: succeeds
only on a tensor type. -/
def MType.asTensor : MType → Option (List Int × MType)
  | MType.tensor s e => some (s, e)
  | _ => none

/-- dyn_cast<PointerType> followed by getPointeeType: succeeds only on a
pointer type. -/
def MType.pointee : MType → Option MType
  | MType.ptr p => some p
  | _ => none

/-- The constant attributes built by the two build functions: the splat of a
boolean over a type (DenseIntElementsAttr::get(ty, true)) and the zero fill
(DenseElementsAttr::get(ty, builder.getZeroAttr(elem))). -/
inductive MAttr where
  | denseSplatBool (ty : MType) (b : Bool)
  | denseZero (ty : MType)
deriving DecidableEq

/-- The element of a boolean dense attribute at a linear position: a splat
yields its value at every position. -/
def attrBoolElem : MAttr → Nat → Option Bool
  | MAttr.denseSplatBool _ b, _ => some b
  | MAttr.denseZero _, _ => none

/-- Shallow embedding of mlir::Value: its type, and the attribute it was
created from when it is an arith::ConstantOp result. -/
structure MValue where
  ty : MType
  fromConst : Option MAttr
deriving DecidableEq

/-- builder.create of arith::ConstantOp with a result type and an attribute. -/
def constantOp (ty : MType) (attr : MAttr) : MValue :=
  { ty := ty, fromConst := some attr }

/-- mlir::OperationState: the accumulated operand list and result types. -/
structure OperationState where
  operands : List MValue
  resultTypes : List MType
deriving DecidableEq

/-- Shallow embedding of StoreOp::build(builder, state, ptr, value) from
Ops.cpp lines 19-32: cast the pointer value's type to a tensor (a failed
dyn_cast leaves a null pointer whose getShape call is undefined behaviour,
modelled as none), synthesize the all-true boolean mask constant of the same
shape, and add the operands ptr, value, mask in that order. -/
def StoreOp_build (state : OperationState) (ptr value : MValue) :
    Option OperationState :=
  match ptr.ty.asTensor with
  | none => none
  | some (shape, _elem) =>
    let mask := constantOp (MType.tensor shape MType.i1)
      (MAttr.denseSplatBool (MType.tensor shape MType.i1) true)
    some { state with operands := state.operands ++ [ptr, value, mask] }

/-- Shallow embedding of LoadOp::build(builder, state, ptr) from Ops.cpp
lines 35-60: cast the pointer value's type to a tensor and its element type
to a Triton pointer type (failed casts are undefined behaviour, modelled as
none), synthesize the all-true boolean mask of the same shape and the
zero-filled other constant of the result type, add the operands ptr, mask,
other in that order, and add the single result type: the ranked tensor of
the pointee element type with the same shape. -/
def LoadOp_build (state : OperationState) (ptr : MValue) :
    Option OperationState :=
  match ptr.ty.asTensor with
  | none => none
  | some (shape, elem) =>
    match elem.pointee with
    | none => none
    | some elementType =>
      let mask := constantOp (MType.tensor shape MType.i1)
        (MAttr.denseSplatBool (MType.tensor shape MType.i1) true)
      let resultType := MType.tensor shape elementType
      let other := constantOp resultType (MAttr.denseZero resultType)
      some { state with
        operands := state.operands ++ [ptr, mask, other],
        resultTypes := state.resultTypes ++ [resultType] }

/-- The default mask value both builders synthesize for a given shape. -/
def trueMask (shape : List Int) : MValue :=
  constantOp (MType.tensor shape MType.i1)
    (MAttr.denseSplatBool (MType.tensor shape MType.i1) true)

/-- The zero-filled other value LoadOp::build synthesizes. -/
def zeroOther (shape : List Int) (elem : MType) : MValue :=
  constantOp (MType.tensor shape elem) (MAttr.denseZero (MType.tensor shape elem))

/-- Claim C10: StoreOp::build(ptr, value) and LoadOp::build(ptr) synthesize a
default mask that is a constant boolean tensor of the pointer tensor's shape
with every element true; LoadOp::build additionally appends an other operand
that is a zero-filled constant tensor and sets the single result type to the
ranked tensor of the pointee element type with that same shape. -/
theorem C10_default_mask_and_other (st : OperationState) (shape : List Int)
    (elem pointee : MType) (pc pc2 : Option MAttr) (value : MValue) :
    StoreOp_build st { ty := MType.tensor shape elem, fromConst := pc } value =
      some { st with operands := st.operands ++
        [{ ty := MType.tensor shape elem, fromConst := pc }, value,
         trueMask shape] } ∧
    LoadOp_build st { ty := MType.tensor shape (MType.ptr pointee), fromConst := pc2 } =
      some { st with
        operands := st.operands ++
          [{ ty := MType.tensor shape (MType.ptr pointee), fromConst := pc2 },
           trueMask shape, zeroOther shape pointee],
        resultTypes := st.resultTypes ++ [MType.tensor shape pointee] } ∧
    (trueMask shape).ty = MType.tensor shape MType.i1 ∧
    (∀ i, (trueMask shape).fromConst.bind (fun a => attrBoolElem a i) = some true) ∧
    (zeroOther shape pointee).fromConst =
      some (MAttr.denseZero (MType.tensor shape pointee)) := by
  refine ⟨?_, ?_, rfl, fun i => rfl, rfl⟩
  · simp [StoreOp_build, MType.asTensor, trueMask, constantOp]
  · simp [LoadOp_build, MType.asTensor, MType.pointee, trueMask, zeroOther, constantOp]

end TTIR
